import Mathlib

/-!
Verification of the kokushi-app query/filter engine and progress tracker.

The definitions below are a shallow embedding of the TypeScript sources:
* `src/lib/dataService` (`parseQuestionId`, `parsePartialQuestionId`,
  `filterQuestions`, `isHisshu`) — strings are modelled as `List Char`,
  the anchored regexes are modelled by equivalent greedy `takeWhile` /
  `dropWhile` scans (the character classes `\d`, `[\s\-_]` and `[a-dA-D]`
  are pairwise disjoint, so the greedy decomposition of an anchored match
  is unique and the scan recognises exactly the regex language).
* `src/store/useProgressStore.ts` (`recordAnswer`, `setDailyGoal`,
  `checkAndUpdateStreak`) — the zustand store is modelled as explicit
  state passing; the wall clock is a parameter (`today`, `yesterday`).
-/

namespace Kokushi

/-- JavaScript `\s` (which `String.prototype.trim` also uses): ASCII
whitespace, NBSP, the Unicode space separators, line/paragraph separators,
and the BOM.  The full-width space U+3000 is in this set. -/
def isWsChar (c : Char) : Bool :=
  c.toNat == 9 || c.toNat == 10 || c.toNat == 11 || c.toNat == 12 ||
  c.toNat == 13 || c.toNat == 32 || c.toNat == 0xa0 || c.toNat == 0x1680 ||
  (0x2000 ≤ c.toNat && c.toNat ≤ 0x200a) ||
  c.toNat == 0x2028 || c.toNat == 0x2029 || c.toNat == 0x202f ||
  c.toNat == 0x205f || c.toNat == 0x3000 || c.toNat == 0xfeff

/-- The regex class `\d`. -/
def isDigitChar (c : Char) : Bool :=
  48 ≤ c.toNat && c.toNat ≤ 57

/-- The regex class `[\s\-_]` (identifier separators): whitespace,
hyphen-minus (45) or underscore (95). -/
def isSepChar (c : Char) : Bool :=
  isWsChar c || c.toNat == 45 || c.toNat == 95

/-- The regex class `[a-dA-D]` (session letters): `a`–`d` are 97–100,
`A`–`D` are 65–68. -/
def isSessionLetter (c : Char) : Bool :=
  (97 ≤ c.toNat && c.toNat ≤ 100) || (65 ≤ c.toNat && c.toNat ≤ 68)

/-- `parseInt` on a string of decimal digits. -/
def digitsVal (l : List Char) : Nat :=
  l.foldl (fun a c => a * 10 + (c.toNat - 48)) 0

/-- ASCII `toUpperCase` on a single character. -/
def upperChar (c : Char) : Char :=
  if 97 ≤ c.toNat ∧ c.toNat ≤ 122 then Char.ofNat (c.toNat - 32) else c

/-- ASCII `toLowerCase` on a single character. -/
def lowerChar (c : Char) : Char :=
  if 65 ≤ c.toNat ∧ c.toNat ≤ 90 then Char.ofNat (c.toNat + 32) else c

/-- `String.prototype.toLowerCase`. -/
def jsLower (l : List Char) : List Char := l.map lowerChar

/-- Remove the maximal whitespace prefix. -/
def trimLeft (l : List Char) : List Char := l.dropWhile isWsChar

/-- Remove the maximal whitespace suffix. -/
def trimRight : List Char → List Char
  | [] => []
  | c :: cs =>
    let r := trimRight cs
    if r.isEmpty && isWsChar c then [] else c :: r

/-- `String.prototype.trim`. -/
def jsTrim (l : List Char) : List Char := trimRight (trimLeft l)

/-- `hay.includes(needle)`: `needle` occurs contiguously in `hay`. -/
def isSubstring (needle : List Char) : List Char → Bool
  | [] => needle.isEmpty
  | c :: cs => needle.isPrefixOf (c :: cs) || isSubstring needle cs

/-- `text.split(/[\s　]+/).filter(k => k.length > 0)`: the maximal
whitespace-free runs of `l`, in order (`acc` holds the reversed current
run). -/
def splitWordsAux : List Char → List Char → List (List Char)
  | [], acc => if acc.isEmpty then [] else [acc.reverse]
  | c :: cs, acc =>
    if isWsChar c then
      if acc.isEmpty then splitWordsAux cs [] else acc.reverse :: splitWordsAux cs []
    else splitWordsAux cs (c :: acc)

def splitWords (l : List Char) : List (List Char) := splitWordsAux l []

/-- Result of `parseQuestionId` (a complete identifier). -/
structure ParsedId where
  year : Nat
  session : String
  number : Nat
deriving DecidableEq

/-- Result of `parsePartialQuestionId`. -/
structure PartialId where
  years : List Nat
  session : Option String
deriving DecidableEq

/-- The fields of a question record that the filter engine reads.
`choices` keeps the record's key/value pairs in insertion order
(`Object.values` is the second projection). -/
structure Question where
  id : String
  year : Nat
  session : String
  number : Nat
  questionText : String
  choices : List (String × String)
deriving DecidableEq

/-- Tail of `parseQuestionId` after the year digits were consumed:
`r2` is the rest of the input with the separator run after the digits
dropped; it must be a session letter, a separator run, and 1–3 digits. -/
def parseSessionNumber (y : Nat) (r2 : List Char) : Option ParsedId :=
  match r2 with
  | [] => none
  | l :: r3 =>
    if isSessionLetter l then
      let r4 := r3.dropWhile isSepChar
      let d2 := r4.takeWhile isDigitChar
      if 1 ≤ d2.length ∧ d2.length ≤ 3 ∧ r4.dropWhile isDigitChar = [] then
        some ⟨y, String.mk [upperChar l], digitsVal d2⟩
      else none
    else none

/-- `parseQuestionId` on an exploded string: the anchored regex
`^(\d{2,3})[\s\-_]*([a-dA-D])[\s\-_]*(\d{1,3})$` applied to the trimmed
input, returning `parseInt` of the digit groups and the uppercased
session letter. -/
def parseQidChars (cs0 : List Char) : Option ParsedId :=
  let cs := jsTrim cs0
  let d1 := cs.takeWhile isDigitChar
  if 2 ≤ d1.length ∧ d1.length ≤ 3 then
    parseSessionNumber (digitsVal d1) ((cs.dropWhile isDigitChar).dropWhile isSepChar)
  else none

/-- `parseQuestionId(text)` from the data service. -/
def parseQuestionId (text : String) : Option ParsedId :=
  parseQidChars text.data

/-- Pattern 1 of `parsePartialQuestionId`:
`^(\d{2,3})[\s\-_]*([a-dA-D])[\s\-_]*$/i` with the year confined to
[100,130]; on failure the caller falls through to patterns 2 and 3. -/
def tryYearSession (t : List Char) : Option PartialId :=
  let d := t.takeWhile isDigitChar
  if 2 ≤ d.length ∧ d.length ≤ 3 then
    match (t.dropWhile isDigitChar).dropWhile isSepChar with
    | [] => none
    | l :: rest =>
      if isSessionLetter l = true ∧ rest.all isSepChar = true then
        if 100 ≤ digitsVal d ∧ digitsVal d ≤ 130 then
          some ⟨[digitsVal d], some (String.mk [upperChar l])⟩
        else none
      else none
  else none

/-- Pattern 3 of `parsePartialQuestionId`: exactly two digits read as a
decade prefix 10–13, expanded to `prefix*10 + 0..9` intersected with the
corpus range [102,118]. -/
def tryDecade (t : List Char) : Option PartialId :=
  if t.length = 2 ∧ t.all isDigitChar = true then
    if 10 ≤ digitsVal t ∧ digitsVal t ≤ 13 then
      let years := ((List.range 10).map fun i => digitsVal t * 10 + i).filter
        fun y => decide (102 ≤ y ∧ y ≤ 118)
      if years = [] then none else some ⟨years, none⟩
    else none
  else none

/-- Patterns 2 then 3 of `parsePartialQuestionId`: exactly three digits
(`^(\d{3})$`) with the year confined to [100,130], else the decade
pattern. -/
def tryYearPatterns (t : List Char) : Option PartialId :=
  if t.length = 3 ∧ t.all isDigitChar = true then
    if 100 ≤ digitsVal t ∧ digitsVal t ≤ 130 then some ⟨[digitsVal t], none⟩
    else tryDecade t
  else tryDecade t

/-- `parsePartialQuestionId` on an exploded string: the three sub-patterns
tried in order on the trimmed input. -/
def parsePartialChars (cs0 : List Char) : Option PartialId :=
  let t := jsTrim cs0
  match tryYearSession t with
  | some r => some r
  | none => tryYearPatterns t

/-- `parsePartialQuestionId(text)` from the data service. -/
def parsePartialQuestionId (text : String) : Option PartialId :=
  parsePartialChars text.data

/-- `isHisshu(year, session, number)` from the data service. -/
def isHisshu (year : Nat) (session : String) (number : Nat) : Bool :=
  if year = 102 then
    (session == "A" || session == "B") && (1 ≤ number && number ≤ 25)
  else if 103 ≤ year ∧ year ≤ 110 then
    (session == "A" || session == "B") && (1 ≤ number && number ≤ 35)
  else if 111 ≤ year ∧ year ≤ 113 then
    (session == "A" || session == "B") && (1 ≤ number && number ≤ 40)
  else if 114 ≤ year then
    (["A", "B", "C", "D"].contains session) && (1 ≤ number && number ≤ 20)
  else false

/-- The keyword test of the general branch of `filterQuestions`: every
whitespace-separated keyword of the trimmed search text must occur
case-insensitively in the question text or in some choice text. -/
def questionMatchesKeywords (trimmedSearch : List Char) (q : Question) : Bool :=
  (splitWords trimmedSearch).all fun kw =>
    isSubstring (jsLower kw) (jsLower q.questionText.data) ||
    (q.choices.map Prod.snd).any fun c => isSubstring (jsLower kw) (jsLower c.data)

/-- The per-question predicate of the general (step 4) branch of
`filterQuestions`: core-topic filter, year filter, session filter, then
keyword search. -/
def generalPass (trimmedSearch : List Char) (selectedYears : List Nat)
    (sessions : List String) (hisshuOnly : Bool) (q : Question) : Bool :=
  if hisshuOnly && !isHisshu q.year q.session q.number then false
  else if !selectedYears.isEmpty && !selectedYears.contains q.year then false
  else if !sessions.isEmpty && !sessions.contains q.session then false
  else if !trimmedSearch.isEmpty then questionMatchesKeywords trimmedSearch q
  else true

/-- `filterQuestions(questions, searchText, selectedYears, sessions,
hisshuOnly)` from the data service: complete-identifier branch, then
exact-id branch, then partial-identifier branch, then the general
filter. -/
def filterQuestions (questions : List Question) (searchText : String)
    (selectedYears : List Nat) (sessions : List String)
    (hisshuOnly : Bool) : List Question :=
  let trimmedSearch := jsTrim searchText.data
  match parseQidChars trimmedSearch with
  | some pc =>
    questions.filter fun q =>
      q.year == pc.year && q.session == pc.session && q.number == pc.number
  | none =>
    let exactMatch :=
      if !trimmedSearch.isEmpty then
        questions.filter fun q => jsLower q.id.data == jsLower trimmedSearch
      else []
    if !exactMatch.isEmpty then exactMatch
    else
      match parsePartialChars trimmedSearch with
      | some pp =>
        questions.filter fun q =>
          pp.years.contains q.year &&
          (match pp.session with
           | some s => q.session == s
           | none => true)
      | none =>
        questions.filter (generalPass trimmedSearch selectedYears sessions hisshuOnly)

/-! ### Progress tracker (`useProgressStore.ts`) -/

/-- The persisted progress state.  `answeredQuestions` is the JS `Set`
in insertion order; `dailyGoal` is an `Int` because the setter never
validates its argument. -/
structure ProgressState where
  currentStreak : Nat
  lastStudyDate : Option String
  longestStreak : Nat
  todayAnswered : Nat
  todayCorrect : Nat
  dailyGoal : Int
  totalAnswered : Nat
  totalCorrect : Nat
  answeredQuestions : List String
deriving DecidableEq

/-- The store's initial values. -/
def initialProgressState : ProgressState :=
  { currentStreak := 0, lastStudyDate := none, longestStreak := 0,
    todayAnswered := 0, todayCorrect := 0, dailyGoal := 20,
    totalAnswered := 0, totalCorrect := 0, answeredQuestions := [] }

/-- `new Set([...prev, questionId])`: append iff not already present. -/
def insertAnswered (l : List String) (x : String) : List String :=
  if l.contains x then l else l ++ [x]

/-- `checkAndUpdateStreak()`.  The wall clock is passed in: `today` and
`yesterday` are the two date strings the action computes. -/
def checkAndUpdateStreak (today yesterday : String) (s : ProgressState) :
    ProgressState :=
  if s.lastStudyDate = some today then s
  else if s.lastStudyDate = some yesterday then
    let newStreak := s.currentStreak + 1
    { s with currentStreak := newStreak,
             longestStreak := max s.longestStreak newStreak }
  else if s.lastStudyDate = none then
    { s with currentStreak := 1, longestStreak := max s.longestStreak 1 }
  else
    { s with currentStreak := 1 }

/-- `recordAnswer(questionId, isCorrect)`: update the day and total
counters, overwrite `lastStudyDate`, insert the id, then run
`checkAndUpdateStreak` on the already-updated state (exactly as the
source does — the streak check therefore sees `lastStudyDate = today`). -/
def recordAnswer (today yesterday questionId : String) (isCorrect : Bool)
    (s : ProgressState) : ProgressState :=
  let isNewDay := s.lastStudyDate ≠ some today
  let s1 : ProgressState :=
    { s with
      todayAnswered := if isNewDay then 1 else s.todayAnswered + 1,
      todayCorrect :=
        if isNewDay then (if isCorrect then 1 else 0)
        else s.todayCorrect + (if isCorrect then 1 else 0),
      totalAnswered := s.totalAnswered + 1,
      totalCorrect := s.totalCorrect + (if isCorrect then 1 else 0),
      lastStudyDate := some today,
      answeredQuestions := insertAnswered s.answeredQuestions questionId }
  checkAndUpdateStreak today yesterday s1

/-- `setDailyGoal(goal)`: stores the argument unconditionally. -/
def setDailyGoal (goal : Int) (s : ProgressState) : ProgressState :=
  { s with dailyGoal := goal }

/-- One public operation of the progress store. -/
inductive ProgressOp where
  | record (today yesterday questionId : String) (isCorrect : Bool)
  | goal (g : Int)
  | check (today yesterday : String)

/-- Apply one public operation to the state. -/
def applyOp : ProgressOp → ProgressState → ProgressState
  | .record t y q c, s => recordAnswer t y q c s
  | .goal g, s => setDailyGoal g s
  | .check t y, s => checkAndUpdateStreak t y s

/-! ### Spec-side definition for the complete-identifier grammar -/

/-- Modelled from the spec's words (§4.1, §8): the trimmed text matches
`^\d{2,3}[\s\-_]*[a-dA-D][\s\-_]*\d{1,3}$` and the three components are
the parsed first digit group, the uppercased letter, and the parsed last
digit group.  Used to compare the spec's grammar with `parseQuestionId`. -/
def completeIdMatch (t : String) (y : Nat) (sess : String) (n : Nat) : Prop :=
  ∃ (d1 s1 s2 d2 : List Char) (l : Char),
    jsTrim t.data = d1 ++ (s1 ++ (l :: (s2 ++ d2))) ∧
    (∀ c ∈ d1, isDigitChar c = true) ∧ 2 ≤ d1.length ∧ d1.length ≤ 3 ∧
    (∀ c ∈ s1, isSepChar c = true) ∧ isSessionLetter l = true ∧
    (∀ c ∈ s2, isSepChar c = true) ∧
    (∀ c ∈ d2, isDigitChar c = true) ∧ 1 ≤ d2.length ∧ d2.length ≤ 3 ∧
    y = digitsVal d1 ∧ sess = String.mk [upperChar l] ∧ n = digitsVal d2

/-! ### Sample data for concrete evaluations -/

/-- A progress state whose last study day was 2026-10-10 with a running
streak of 3. -/
def streakYesterdayState : ProgressState :=
  { currentStreak := 3, lastStudyDate := some "2026-10-10", longestStreak := 3,
    todayAnswered := 5, todayCorrect := 4, dailyGoal := 20,
    totalAnswered := 100, totalCorrect := 80, answeredQuestions := ["112A1"] }

def qA : Question :=
  { id := "112B48", year := 112, session := "B", number := 48,
    questionText := "caries cavity", choices := [("a", "alpha")] }

def qB : Question :=
  { id := "99A1", year := 99, session := "A", number := 1,
    questionText := "caries", choices := [("a", "deep cavity")] }

def qC : Question :=
  { id := "105C10", year := 105, session := "C", number := 10,
    questionText := "caries only", choices := [("a", "none")] }

/-! ### Character-class disjointness -/

theorem ws_not_digit {c : Char} (h : isWsChar c = true) : isDigitChar c = false := by
  simp only [isWsChar, Bool.or_eq_true, beq_iff_eq, Bool.and_eq_true,
    decide_eq_true_eq] at h
  simp only [isDigitChar, Bool.and_eq_false_iff, decide_eq_false_iff_not]
  omega

theorem sep_not_digit {c : Char} (h : isSepChar c = true) : isDigitChar c = false := by
  simp only [isSepChar, Bool.or_eq_true, beq_iff_eq] at h
  rcases h with (h | h) | h
  · exact ws_not_digit h
  · simp only [isDigitChar, Bool.and_eq_false_iff, decide_eq_false_iff_not]; omega
  · simp only [isDigitChar, Bool.and_eq_false_iff, decide_eq_false_iff_not]; omega

theorem letter_not_digit {c : Char} (h : isSessionLetter c = true) :
    isDigitChar c = false := by
  simp only [isSessionLetter, Bool.or_eq_true, Bool.and_eq_true,
    decide_eq_true_eq] at h
  simp only [isDigitChar, Bool.and_eq_false_iff, decide_eq_false_iff_not]
  omega

theorem letter_not_sep {c : Char} (h : isSessionLetter c = true) :
    isSepChar c = false := by
  simp only [isSessionLetter, Bool.or_eq_true, Bool.and_eq_true,
    decide_eq_true_eq] at h
  simp only [isSepChar, isWsChar, Bool.or_eq_false_iff, beq_eq_false_iff_ne,
    Bool.and_eq_false_iff, decide_eq_false_iff_not]
  omega

theorem digit_not_sep {c : Char} (h : isDigitChar c = true) : isSepChar c = false := by
  simp only [isDigitChar, Bool.and_eq_true, decide_eq_true_eq] at h
  simp only [isSepChar, isWsChar, Bool.or_eq_false_iff, beq_eq_false_iff_ne,
    Bool.and_eq_false_iff, decide_eq_false_iff_not]
  omega

/-! ### takeWhile / dropWhile / trim lemmas -/

theorem takeWhile_append_of (p : Char → Bool) (a b : List Char)
    (ha : ∀ c ∈ a, p c = true) (hb : ∀ c r, b = c :: r → p c = false) :
    (a ++ b).takeWhile p = a ∧ (a ++ b).dropWhile p = b := by
  induction a with
  | nil =>
    cases b with
    | nil => simp
    | cons c r =>
      have := hb c r rfl
      simp [List.takeWhile_cons, List.dropWhile_cons, this]
  | cons x xs ih =>
    have hx : p x = true := ha x (by simp)
    have h2 := ih fun c hc => ha c (by simp [hc])
    simp [List.takeWhile_cons, List.dropWhile_cons, hx, h2.1, h2.2]

theorem dropWhile_head_false (p : Char → Bool) (l : List Char) :
    ∀ c r, l.dropWhile p = c :: r → p c = false := by
  induction l with
  | nil => intro c r h; simp at h
  | cons x xs ih =>
    intro c r h
    by_cases hx : p x
    · rw [List.dropWhile_cons_of_pos hx] at h
      exact ih c r h
    · rw [List.dropWhile_cons_of_neg hx] at h
      cases h
      exact Bool.eq_false_iff.mpr hx

theorem dropWhile_of_head_false (p : Char → Bool) (l : List Char)
    (h : ∀ c r, l = c :: r → p c = false) : l.dropWhile p = l := by
  cases l with
  | nil => rfl
  | cons x xs =>
    rw [List.dropWhile_cons_of_neg (by simp [h x xs rfl])]

theorem trimRight_head (l : List Char) (c : Char) (r : List Char)
    (h : trimRight l = c :: r) : ∃ r0, l = c :: r0 := by
  cases l with
  | nil => simp [trimRight] at h
  | cons x xs =>
    simp only [trimRight] at h
    split at h
    · exact absurd h (by simp)
    · exact ⟨xs, by rw [(List.cons.injEq _ _ _ _).mp h |>.1]⟩

theorem trimRight_idem (l : List Char) : trimRight (trimRight l) = trimRight l := by
  induction l with
  | nil => rfl
  | cons x xs ih =>
    simp only [trimRight]
    by_cases hc : ((trimRight xs).isEmpty && isWsChar x) = true
    · rw [if_pos hc]; rfl
    · rw [if_neg hc]
      simp only [trimRight, ih]
      rw [if_neg hc]

theorem jsTrim_idem (l : List Char) : jsTrim (jsTrim l) = jsTrim l := by
  unfold jsTrim
  have h1 : trimLeft (trimRight (trimLeft l)) = trimRight (trimLeft l) := by
    apply dropWhile_of_head_false
    intro c r h
    obtain ⟨r0, hr0⟩ := trimRight_head _ _ _ h
    exact dropWhile_head_false isWsChar l c r0 hr0
  rw [h1, trimRight_idem]

theorem parseQidChars_jsTrim (cs : List Char) :
    parseQidChars (jsTrim cs) = parseQidChars cs := by
  simp only [parseQidChars, jsTrim_idem]

theorem parsePartialChars_jsTrim (cs : List Char) :
    parsePartialChars (jsTrim cs) = parsePartialChars cs := by
  simp only [parsePartialChars, jsTrim_idem]

/-! ### Progress tracker lemmas and claim theorems -/

/-- Normal form of `recordAnswer`: the trailing `checkAndUpdateStreak` is a
no-op because the state it reads already has `lastStudyDate = today`. -/
theorem recordAnswer_eq (today yesterday qid : String) (c : Bool)
    (s : ProgressState) :
    recordAnswer today yesterday qid c s =
    { s with
      todayAnswered := if s.lastStudyDate = some today then s.todayAnswered + 1 else 1,
      todayCorrect :=
        if s.lastStudyDate = some today then s.todayCorrect + (if c then 1 else 0)
        else (if c then 1 else 0),
      totalAnswered := s.totalAnswered + 1,
      totalCorrect := s.totalCorrect + (if c then 1 else 0),
      lastStudyDate := some today,
      answeredQuestions := insertAnswered s.answeredQuestions qid } := by
  simp only [recordAnswer, checkAndUpdateStreak, ne_eq, ite_not]
  by_cases h : s.lastStudyDate = some today <;> simp [h]

/-- Claim C1 (code bug): from a state whose `lastStudyDate` is yesterday
(streak 3), `recordAnswer` leaves `currentStreak` at 3 instead of
incrementing it to 4 — `recordAnswer` overwrites `lastStudyDate` with
today before `checkAndUpdateStreak` reads it, so the streak update always
takes its already-counted-today branch. -/
theorem recordAnswer_yesterday_streak_unchanged :
    (recordAnswer "2026-10-11" "2026-10-10" "118B2" true
        streakYesterdayState).currentStreak = 3 ∧
    (recordAnswer "2026-10-11" "2026-10-10" "118B2" true
        streakYesterdayState).longestStreak = 3 := by
  decide

/-- Claim C2 (code bug): from the initial no-history state, the first
`recordAnswer` leaves `currentStreak = 0` and `longestStreak = 0`, not 1:
the streak update reads the state after `lastStudyDate` was already set
to today and therefore does nothing. -/
theorem recordAnswer_first_ever_streak_zero :
    (recordAnswer "2026-10-11" "2026-10-10" "112A1" true
        initialProgressState).currentStreak = 0 ∧
    (recordAnswer "2026-10-11" "2026-10-10" "112A1" true
        initialProgressState).longestStreak = 0 := by
  decide

/-- Claim C7: `recordAnswer` resets the day counters on a day rollover and
increments them otherwise, unconditionally bumps the totals, sets
`lastStudyDate` to today, and adds the question id as an idempotent set
insert. -/
theorem recordAnswer_counter_updates (today yesterday qid : String) (c : Bool)
    (s : ProgressState) :
    ((recordAnswer today yesterday qid c s).todayAnswered =
        if s.lastStudyDate = some today then s.todayAnswered + 1 else 1) ∧
    ((recordAnswer today yesterday qid c s).todayCorrect =
        if s.lastStudyDate = some today then s.todayCorrect + (if c then 1 else 0)
        else (if c then 1 else 0)) ∧
    (recordAnswer today yesterday qid c s).totalAnswered = s.totalAnswered + 1 ∧
    (recordAnswer today yesterday qid c s).totalCorrect =
        s.totalCorrect + (if c then 1 else 0) ∧
    (recordAnswer today yesterday qid c s).lastStudyDate = some today ∧
    (∀ x, x ∈ (recordAnswer today yesterday qid c s).answeredQuestions ↔
        x ∈ s.answeredQuestions ∨ x = qid) ∧
    (qid ∈ s.answeredQuestions →
        (recordAnswer today yesterday qid c s).answeredQuestions =
          s.answeredQuestions) := by
  rw [recordAnswer_eq]
  refine ⟨rfl, rfl, rfl, rfl, rfl, ?_, ?_⟩
  · intro x
    simp only [insertAnswered]
    by_cases hq : s.answeredQuestions.contains qid
    · rw [if_pos hq]
      have hmem : qid ∈ s.answeredQuestions := List.elem_iff.mp hq
      constructor
      · exact fun h => Or.inl h
      · rintro (h | rfl)
        · exact h
        · exact hmem
    · rw [if_neg hq]
      simp [List.mem_append]
  · intro hq
    simp only [insertAnswered]
    rw [if_pos (List.elem_iff.mpr hq)]

/-- Witness for C7 at a concrete input: re-answering an already-answered
question leaves the answered-id set unchanged. -/
theorem recordAnswer_counter_updates_witness :
    (recordAnswer "2026-10-11" "2026-10-10" "112A1" true
      { initialProgressState with answeredQuestions := ["112A1"] }).answeredQuestions
      = ["112A1"] := by
  have h := recordAnswer_counter_updates "2026-10-11" "2026-10-10" "112A1" true
    { initialProgressState with answeredQuestions := ["112A1"] }
  exact h.2.2.2.2.2.2 (by decide)

/-- Claim C8 (code bug): the invariant `longestStreak ≥ currentStreak` is
violated in a reachable state: answer once on 2026-10-01 (the streak
stays 0 because of the `recordAnswer` ordering bug), then call
`checkAndUpdateStreak` two days later — its reset branch sets
`currentStreak = 1` while `longestStreak` is still 0. -/
theorem streak_invariant_violated_reachable :
    (applyOp (.check "2026-10-03" "2026-10-02")
      (applyOp (.record "2026-10-01" "2026-09-30" "112A1" true)
        initialProgressState)).longestStreak <
    (applyOp (.check "2026-10-03" "2026-10-02")
      (applyOp (.record "2026-10-01" "2026-09-30" "112A1" true)
        initialProgressState)).currentStreak := by
  decide

/-- Claim C9 counterexample: `setDailyGoal (-5)` neither rejects (the
goal was 20) nor clamps to 1 — it stores -5, so a reachable state has
`dailyGoal ≤ 0`. -/
theorem setDailyGoal_no_clamp_counterexample :
    (setDailyGoal (-5) initialProgressState).dailyGoal = -5 ∧
    ¬((setDailyGoal (-5) initialProgressState).dailyGoal =
        initialProgressState.dailyGoal ∨
      (setDailyGoal (-5) initialProgressState).dailyGoal = 1) := by
  decide

/-- Claim C9 as amended: `setDailyGoal` stores its argument unchanged and
touches no other field; it performs no validation of non-positive goals. -/
theorem setDailyGoal_stores_goal (g : Int) (s : ProgressState) :
    setDailyGoal g s = { s with dailyGoal := g } := rfl

/-- Claim C10: every public operation of the progress store leaves
`answeredQuestions` a superset of its previous value — no operation
removes an id. -/
theorem answeredQuestions_monotone (op : ProgressOp) (s : ProgressState)
    (x : String) (hx : x ∈ s.answeredQuestions) :
    x ∈ (applyOp op s).answeredQuestions := by
  cases op with
  | record t y q c =>
    show x ∈ (recordAnswer t y q c s).answeredQuestions
    rw [recordAnswer_eq]
    simp only [insertAnswered]
    split
    · exact hx
    · exact List.mem_append_left _ hx
  | goal g => exact hx
  | check t y =>
    show x ∈ (checkAndUpdateStreak t y s).answeredQuestions
    unfold checkAndUpdateStreak
    split
    · exact hx
    · split
      · exact hx
      · split
        · exact hx
        · exact hx

/-- Witness for C10 at a concrete input. -/
theorem answeredQuestions_monotone_witness :
    "112A1" ∈ (applyOp (.goal 5)
      { initialProgressState with answeredQuestions := ["112A1"] }).answeredQuestions := by
  exact answeredQuestions_monotone (.goal 5)
    { initialProgressState with answeredQuestions := ["112A1"] } "112A1" (by decide)

/-! ### Filter engine claim theorems -/

/-- Claim C3: when the search text is accepted by the complete-identifier
parser, `filterQuestions` returns exactly the questions whose
(year, session, number) triple equals the parsed triple, and the year,
session and core-topic-only arguments have no effect on the result. -/
theorem filterQuestions_complete_id_branch (qs : List Question) (t : String)
    (pid : ParsedId) (ys : List Nat) (ss : List String) (b : Bool)
    (hp : parseQuestionId t = some pid) :
    filterQuestions qs t ys ss b =
      (qs.filter fun q => q.year == pid.year && q.session == pid.session &&
        q.number == pid.number) ∧
    ∀ (ys' : List Nat) (ss' : List String) (b' : Bool),
      filterQuestions qs t ys' ss' b' = filterQuestions qs t ys ss b := by
  have h : parseQidChars (jsTrim t.data) = some pid := by
    rw [parseQidChars_jsTrim]
    exact hp
  constructor
  · simp only [filterQuestions, h]
  · intro ys' ss' b'
    simp only [filterQuestions, h]

/-- Witness for C3 at a concrete input: the identifier search "112-B-48"
returns the one matching question and ignores the year/session/core
filters that would exclude it. -/
theorem filterQuestions_complete_id_branch_witness :
    filterQuestions [qA, qB, qC] "112-B-48" [99] ["C"] true = [qA] := by
  have h := filterQuestions_complete_id_branch [qA, qB, qC] "112-B-48"
    ⟨112, "B", 48⟩ [99] ["C"] true (by decide)
  rw [h.1]
  decide

/-- Claim C6: a two-digit search text with prefix 10–13 expands to the
candidate years `prefix*10 + 0..9` filtered to [102,118] (no match when
that list is empty), and the search "11" therefore returns exactly the
questions with year between 110 and 118, independently of the other
filter arguments, provided no question id is literally "11". -/
theorem decade_prefix_expansion (t : String) (c1 c2 : Char)
    (qs : List Question) (ys : List Nat) (ss : List String) (b : Bool)
    (hA : jsTrim t.data = [c1, c2])
    (h1 : isDigitChar c1 = true) (h2 : isDigitChar c2 = true)
    (hp : 10 ≤ digitsVal [c1, c2] ∧ digitsVal [c1, c2] ≤ 13)
    (hid : ∀ q ∈ qs, jsLower q.id.data ≠ ['1', '1']) :
    parsePartialQuestionId t =
      (if (((List.range 10).map fun i => digitsVal [c1, c2] * 10 + i).filter
            fun y => decide (102 ≤ y ∧ y ≤ 118)) = [] then none
       else some ⟨((List.range 10).map fun i => digitsVal [c1, c2] * 10 + i).filter
            fun y => decide (102 ≤ y ∧ y ≤ 118), none⟩) ∧
    filterQuestions qs "11" ys ss b =
      (qs.filter fun q => decide (110 ≤ q.year ∧ q.year ≤ 118)) := by
  constructor
  · have hd : [c1, c2].takeWhile isDigitChar = [c1, c2] := by
      simp [List.takeWhile_cons, h1, h2]
    have hdrop : [c1, c2].dropWhile isDigitChar = [] := by
      simp [List.dropWhile_cons, h1, h2]
    have hys : tryYearSession [c1, c2] = none := by
      simp [tryYearSession, hd, hdrop]
    have hall : [c1, c2].all isDigitChar = true := by simp [h1, h2]
    show parsePartialChars t.data = _
    simp only [parsePartialChars, hA, hys]
    simp [tryYearPatterns, tryDecade, hall, hp.1, hp.2]
  · have e1 : jsTrim ("11" : String).data = ['1', '1'] := by decide
    have e2 : parseQidChars ['1', '1'] = none := by decide
    have e3 : parsePartialChars ['1', '1'] =
        some ⟨[110, 111, 112, 113, 114, 115, 116, 117, 118], none⟩ := by decide
    have e5 : jsLower ['1', '1'] = ['1', '1'] := by decide
    have e4 : (qs.filter fun q => jsLower q.id.data == jsLower ['1', '1']) = [] := by
      rw [List.filter_eq_nil_iff]
      intro q hq
      rw [e5]
      simpa using hid q hq
    simp only [filterQuestions, e1, e2, e3, e4]
    simp only [List.isEmpty_cons, Bool.not_false, if_true, List.isEmpty_nil,
      Bool.not_true, Bool.false_eq_true, if_false]
    apply List.filter_congr
    intro q _
    rw [Bool.eq_iff_iff]
    simp only [Bool.and_eq_true, List.contains, List.elem_iff, List.mem_cons,
      List.not_mem_nil, decide_eq_true_eq, and_true, or_false]
    omega

/-- Witness for C6 at a concrete input: searching "11" keeps the year-112
question and drops the year-99 and year-105 ones. -/
theorem decade_prefix_expansion_witness :
    filterQuestions [qA, qB, qC] "11" [] [] false = [qA] := by
  have h := decade_prefix_expansion "11" '1' '1' [qA, qB, qC] [] [] false
    (by decide) (by decide) (by decide) (by decide) (by decide)
  rw [h.2]
  decide

/-- Normal form of a chain of early-`false` guards. -/
theorem ite_chain_bool (c1 c2 c3 c4 k : Bool) :
    (if c1 then false else if c2 then false else if c3 then false
     else if c4 then k else true) = (!c1 && !c2 && !c3 && (!c4 || k)) := by
  cases c1 <;> cases c2 <;> cases c3 <;> cases c4 <;> cases k <;> rfl

/-- The general-branch predicate as one Bool formula. -/
theorem generalPass_eq (ts : List Char) (ys : List Nat) (ss : List String)
    (b : Bool) (q : Question) :
    generalPass ts ys ss b q =
      (!(b && !isHisshu q.year q.session q.number) &&
       !(!ys.isEmpty && !ys.contains q.year) &&
       !(!ss.isEmpty && !ss.contains q.session) &&
       (!(!ts.isEmpty) || questionMatchesKeywords ts q)) :=
  ite_chain_bool _ _ _ _ _

/-- A guard of the shape `flag && !condition` passes iff the flag implies
the condition. -/
theorem guard_not_and (a h : Bool) : (!(a && !h)) = true ↔ (a = true → h = true) := by
  cases a <;> cases h <;> simp

/-- The year/session guards pass iff a non-empty selection contains the
question's value. -/
theorem guard_list {α : Type} [BEq α] [LawfulBEq α] (l : List α) (x : α) :
    (!(!l.isEmpty && !l.contains x)) = true ↔ (l ≠ [] → x ∈ l) := by
  cases l with
  | nil => simp
  | cons a as => simp [List.contains, List.elem_iff]

/-- The keyword test in `Prop` form. -/
theorem questionMatchesKeywords_iff (ts : List Char) (q : Question) :
    questionMatchesKeywords ts q = true ↔
      ∀ kw ∈ splitWords ts,
        isSubstring (jsLower kw) (jsLower q.questionText.data) = true ∨
        ∃ p ∈ q.choices, isSubstring (jsLower kw) (jsLower p.2.data) = true := by
  simp only [questionMatchesKeywords, List.all_eq_true, Bool.or_eq_true,
    List.any_eq_true, List.mem_map]
  constructor
  · intro h kw hkw
    rcases h kw hkw with h | ⟨c, ⟨p, hp, hpc⟩, hsub⟩
    · exact Or.inl h
    · exact Or.inr ⟨p, hp, hpc ▸ hsub⟩
  · intro h kw hkw
    rcases h kw hkw with h | ⟨p, hp, hsub⟩
    · exact Or.inl h
    · exact Or.inr ⟨p.2, ⟨p, hp, rfl⟩, hsub⟩

/-- Claim C5: in the general-filter branch (no complete, exact-id or
partial identifier match, non-empty trimmed search text), a question is
in the result iff it passes the year/session/core-topic filters and
every whitespace-separated keyword case-insensitively substring-matches
the question text or at least one choice text (AND across keywords, OR
between the two fields). -/
theorem filterQuestions_keyword_and_semantics (qs : List Question) (t : String)
    (ys : List Nat) (ss : List String) (b : Bool) (q : Question)
    (h1 : parseQidChars (jsTrim t.data) = none)
    (h2 : (qs.filter fun q => jsLower q.id.data == jsLower (jsTrim t.data)) = [])
    (h3 : parsePartialChars (jsTrim t.data) = none)
    (h4 : jsTrim t.data ≠ []) :
    q ∈ filterQuestions qs t ys ss b ↔
      q ∈ qs ∧
      (b = true → isHisshu q.year q.session q.number = true) ∧
      (ys ≠ [] → q.year ∈ ys) ∧
      (ss ≠ [] → q.session ∈ ss) ∧
      ∀ kw ∈ splitWords (jsTrim t.data),
        isSubstring (jsLower kw) (jsLower q.questionText.data) = true ∨
        ∃ p ∈ q.choices,
          isSubstring (jsLower kw) (jsLower p.2.data) = true := by
  have h4' : (jsTrim t.data).isEmpty = false := by
    cases hj : jsTrim t.data with
    | nil => exact absurd hj h4
    | cons c cs => rfl
  have hlast : (!(!(jsTrim t.data).isEmpty) ||
      questionMatchesKeywords (jsTrim t.data) q) =
      questionMatchesKeywords (jsTrim t.data) q := by
    rw [h4']
    rfl
  simp only [filterQuestions, h1, h2, h3, ite_self, List.isEmpty_nil,
    Bool.not_true, Bool.false_eq_true, if_false]
  rw [List.mem_filter, generalPass_eq, hlast, Bool.and_eq_true,
    Bool.and_eq_true, Bool.and_eq_true, guard_not_and, guard_list,
    guard_list, questionMatchesKeywords_iff]
  simp [and_assoc]

/-- Witness for C5 at a concrete input: with keywords "caries cavity",
the question containing both is kept and the question containing only
"caries" is excluded. -/
theorem filterQuestions_keyword_and_semantics_witness :
    qA ∈ filterQuestions [qA, qB, qC] "caries cavity" [] [] false ∧
    ¬ qC ∈ filterQuestions [qA, qB, qC] "caries cavity" [] [] false := by
  constructor
  · exact (filterQuestions_keyword_and_semantics [qA, qB, qC] "caries cavity"
      [] [] false qA (by decide) (by decide) (by decide) (by decide)).mpr (by decide)
  · intro hmem
    have h := (filterQuestions_keyword_and_semantics [qA, qB, qC] "caries cavity"
      [] [] false qC (by decide) (by decide) (by decide) (by decide)).mp hmem
    revert h
    decide

/-! ### Claim C4: the complete-identifier parser and the spec grammar -/

/-- On a well-formed tail (letter, separator run, digit run) the session
and number parser computes the expected result. -/
theorem parseSessionNumber_of (y : Nat) (l : Char) (s2 d2 : List Char)
    (hl : isSessionLetter l = true)
    (hs2 : ∀ c ∈ s2, isSepChar c = true)
    (hd2 : ∀ c ∈ d2, isDigitChar c = true)
    (hlen1 : 1 ≤ d2.length) (hlen2 : d2.length ≤ 3) :
    parseSessionNumber y (l :: (s2 ++ d2)) =
      some ⟨y, String.mk [upperChar l], digitsVal d2⟩ := by
  have hd2ne : ∀ c r, d2 = c :: r → isSepChar c = false := by
    intro c r hcr
    exact digit_not_sep (hd2 c (by simp [hcr]))
  have h1 := takeWhile_append_of isSepChar s2 d2 hs2 hd2ne
  have h2 := takeWhile_append_of isDigitChar d2 []
    hd2 (by intro c r h; simp at h)
  simp only [List.append_nil] at h2
  simp only [parseSessionNumber, hl, if_true, h1.2, h2.1, h2.2]
  rw [if_pos ⟨hlen1, hlen2, trivial⟩]

/-- If the session and number parser succeeds, its input decomposes as a
session letter, a separator run and a digit run of length 1–3, and the
result is determined by that decomposition. -/
theorem parseSessionNumber_some (y : Nat) (r2 : List Char) (p : ParsedId)
    (h : parseSessionNumber y r2 = some p) :
    ∃ l s2 d2, r2 = l :: (s2 ++ d2) ∧ isSessionLetter l = true ∧
      (∀ c ∈ s2, isSepChar c = true) ∧ (∀ c ∈ d2, isDigitChar c = true) ∧
      1 ≤ d2.length ∧ d2.length ≤ 3 ∧
      p = ⟨y, String.mk [upperChar l], digitsVal d2⟩ := by
  cases r2 with
  | nil => simp [parseSessionNumber] at h
  | cons l r3 =>
    simp only [parseSessionNumber] at h
    by_cases hl : isSessionLetter l = true
    · rw [if_pos hl] at h
      split at h
      next hg =>
        injection h with h'
        refine ⟨l, r3.takeWhile isSepChar,
          (r3.dropWhile isSepChar).takeWhile isDigitChar,
          ?_, hl, ?_, ?_, hg.1, hg.2.1, ?_⟩
        · have e1 : r3 = r3.takeWhile isSepChar ++ r3.dropWhile isSepChar :=
            (List.takeWhile_append_dropWhile _ _).symm
          have e2 : r3.dropWhile isSepChar =
              (r3.dropWhile isSepChar).takeWhile isDigitChar ++
              (r3.dropWhile isSepChar).dropWhile isDigitChar :=
            (List.takeWhile_append_dropWhile _ _).symm
          rw [hg.2.2, List.append_nil] at e2
          rw [List.cons.injEq]
          exact ⟨rfl, by rw [← e2]; exact e1⟩
        · intro c hc
          exact List.mem_takeWhile_imp hc
        · intro c hc
          exact List.mem_takeWhile_imp hc
        · exact h'.symm
      next => exact absurd h (by simp)
    · rw [if_neg hl] at h
      exact absurd h (by simp)

/-- Claim C4: `parseQuestionId` succeeds with result (y, session, n)
exactly when the trimmed text matches the spec grammar
`digits{2,3} separators* letter separators* digits{1,3}` (anchored), with
y the value of the first digit group, the session the uppercased letter
and n the value of the final digit group; any text missing one of the
three components therefore returns no-match. -/
theorem parseQuestionId_complete_grammar (t : String) (y : Nat)
    (sess : String) (n : Nat) :
    parseQuestionId t = some ⟨y, sess, n⟩ ↔ completeIdMatch t y sess n := by
  constructor
  · intro h
    simp only [parseQuestionId, parseQidChars] at h
    split at h
    case isTrue hd1 =>
      obtain ⟨l, s2, d2, hr2, hl, hs2, hd2, hlen1, hlen2, hp⟩ :=
        parseSessionNumber_some _ _ _ h
      refine ⟨(jsTrim t.data).takeWhile isDigitChar,
        ((jsTrim t.data).dropWhile isDigitChar).takeWhile isSepChar,
        s2, d2, l, ?_, ?_, hd1.1, hd1.2, ?_, hl, hs2, hd2, hlen1, hlen2,
        ?_, ?_, ?_⟩
      · have e1 : jsTrim t.data =
            (jsTrim t.data).takeWhile isDigitChar ++
            (jsTrim t.data).dropWhile isDigitChar :=
          (List.takeWhile_append_dropWhile _ _).symm
        have e2 : (jsTrim t.data).dropWhile isDigitChar =
            ((jsTrim t.data).dropWhile isDigitChar).takeWhile isSepChar ++
            ((jsTrim t.data).dropWhile isDigitChar).dropWhile isSepChar :=
          (List.takeWhile_append_dropWhile _ _).symm
        rw [hr2] at e2
        rw [e2] at e1
        exact e1
      · intro c hc
        exact List.mem_takeWhile_imp hc
      · intro c hc
        exact List.mem_takeWhile_imp hc
      · exact congrArg ParsedId.year hp
      · exact congrArg ParsedId.session hp
      · exact congrArg ParsedId.number hp
    case isFalse => exact absurd h (by simp)
  · rintro ⟨d1, s1, s2, d2, l, heq, hd1, hlen2, hlen3, hs1, hl, hs2, hd2,
      hlen4, hlen5, hy, hsess, hn⟩
    simp only [parseQuestionId, parseQidChars, heq]
    have hb1 : ∀ c r, (s1 ++ (l :: (s2 ++ d2))) = c :: r →
        isDigitChar c = false := by
      intro c r hcr
      cases s1 with
      | nil =>
        simp only [List.nil_append, List.cons.injEq] at hcr
        rw [← hcr.1]
        exact letter_not_digit hl
      | cons a s1' =>
        simp only [List.cons_append, List.cons.injEq] at hcr
        rw [← hcr.1]
        exact sep_not_digit (hs1 a (by simp))
    have htw := takeWhile_append_of isDigitChar d1 (s1 ++ (l :: (s2 ++ d2)))
      hd1 hb1
    have hb2 : ∀ c r, (l :: (s2 ++ d2)) = c :: r → isSepChar c = false := by
      intro c r hcr
      rw [← (List.cons.injEq _ _ _ _).mp hcr |>.1]
      exact letter_not_sep hl
    have hsw := takeWhile_append_of isSepChar s1 (l :: (s2 ++ d2)) hs1 hb2
    rw [htw.1, htw.2, hsw.2, if_pos ⟨hlen2, hlen3⟩,
      parseSessionNumber_of _ _ _ _ hl hs2 hd2 hlen4 hlen5,
      hy, hsess, hn]

/-- Witness for C4 at a concrete input: "112-B-48" decomposes under the
grammar and parses to (112, "B", 48). -/
theorem parseQuestionId_complete_grammar_witness :
    parseQuestionId "112-B-48" = some ⟨112, "B", 48⟩ :=
  (parseQuestionId_complete_grammar "112-B-48" 112 "B" 48).mpr
    ⟨['1', '1', '2'], ['-'], ['-'], ['4', '8'], 'B', by decide, by decide,
      by decide, by decide, by decide, by decide, by decide, by decide,
      by decide, by decide, by decide, by decide, by decide⟩

end Kokushi
